import Mathlib

/-!
Shallow embedding of the grubbit asset system (src/lib/asset.js and
src/unnamed/part_001's isURL helper), together with theorems settling the
specification claims about it.

External collaborators (the platform fetch, the Dexie/IndexedDB store's raw
byte handling, JSZip decoding, JSON parsing, MIME inference and the platform
URL grammar) are modelled as an `Env` of abstract functions, per the spec's
interface boundaries.  The Dexie store itself is modelled with value
semantics: `get` hands back a structured clone of the stored record, so
mutating the returned object without a subsequent `put` does not change the
store — exactly the behaviour of IndexedDB records.
-/

/-- Decidable equality for `Except`, needed to evaluate concrete resolution
results. -/
instance exceptDecEq {ε α : Type} [DecidableEq ε] [DecidableEq α] :
    DecidableEq (Except ε α)
  | .error e, .error f =>
    if h : e = f then .isTrue (by rw [h]) else .isFalse (fun hc => h (by injection hc))
  | .error _, .ok _ => .isFalse nofun
  | .ok _, .error _ => .isFalse nofun
  | .ok a, .ok b =>
    if h : a = b then .isTrue (by rw [h]) else .isFalse (fun hc => h (by injection hc))

namespace Grubbit

/-- Raw file bytes (a Blob's contents). -/
abbrev Bytes := List Nat

/-- The error classes that can be thrown by the code under study.
`FetchError` and its subclass `NotFoundError` are declared in
src/lib/asset.js; `typeError`, `referenceError` and `dataError` are the
platform errors the code can raise; `rangeError` stands for stack
exhaustion on unbounded recursion. -/
inductive JsErr where
  | notFound
  | fetchError
  | typeError
  | referenceError
  | dataError
  | rangeError
  deriving DecidableEq

/-- `err instanceof FetchError` — `NotFoundError extends FetchError`, so both
classes satisfy the test (src/lib/asset.js lines 34-35, 153). -/
def JsErr.isFetchError : JsErr → Bool
  | .notFound => true
  | .fetchError => true
  | _ => false

/-- A record of the `assets` table: `{ hash, data, type, packages }`
(src/lib/asset.js lines 90-95). -/
structure Asset where
  hash : String
  data : Bytes
  type : Option String
  packages : List String
  deriving DecidableEq

/-- The parsed `asset.json` manifest: `{ name, parent?, files }`.  `files` is
kept as an ordered association list, matching `for...in` iteration order over
the manifest object's keys. -/
structure Manifest where
  name : String
  parent : Option String
  files : List (String × String)
  deriving DecidableEq

/-- A record of the `packages` table: `{ ...manifest, id, acquiredAt }`
(src/lib/asset.js lines 99-103). -/
structure Package where
  id : String
  name : String
  parent : Option String
  files : List (String × String)
  acquiredAt : Nat
  deriving DecidableEq

/-- The persistent Dexie store: the `assets` and `packages` tables. -/
structure Store where
  assets : List Asset
  packages : List Package
  deriving DecidableEq

/-- `db.assets.get(hash)` — primary-key lookup on `&hash`. -/
def assetsGet (st : Store) (h : String) : Option Asset :=
  st.assets.find? (fun a => a.hash == h)

/-- `db.assets.put(asset)` — upsert keyed on `&hash`. -/
def assetsPut (st : Store) (a : Asset) : Store :=
  if (st.assets.find? (fun b => b.hash == a.hash)).isSome then
    { st with assets := st.assets.map (fun b => if b.hash == a.hash then a else b) }
  else
    { st with assets := st.assets ++ [a] }

/-- `db.packages.get(id)` — primary-key lookup on `&id`. -/
def packagesGet (st : Store) (i : String) : Option Package :=
  st.packages.find? (fun p => p.id == i)

/-- `db.packages.put(pkg)` — upsert keyed on `&id`. -/
def packagesPut (st : Store) (p : Package) : Store :=
  if (st.packages.find? (fun q => q.id == p.id)).isSome then
    { st with packages := st.packages.map (fun q => if q.id == p.id then p else q) }
  else
    { st with packages := st.packages ++ [p] }

/-- Network effects performed by an operation: the repository probe/archive
download pipeline of `fetchPackage`, and a direct `fetch` of a URL. -/
inductive NetEvent where
  | fetchPkg (packageId : String)
  | fetchUrl (url : String)
  deriving DecidableEq

/-- A downloaded and decoded package archive: its parsed `asset.json`
manifest and the mapping from in-archive path to extractable bytes. -/
structure Archive where
  manifest : Manifest
  payload : List (String × Bytes)
  deriving DecidableEq

/-- `files[filename].extract()`'s source of bytes: lookup of a path in the
decoded archive. -/
def archLookup (payload : List (String × Bytes)) (name : String) : Option Bytes :=
  (payload.find? (fun e => e.1 == name)).map (fun e => e.2)

/-- The external collaborators, per the spec's interface boundaries:
platform URL parsing, MIME inference, the repository-locate + download +
unzip + manifest-parse pipeline of `fetchPackage`/`extractZip`/`JSON.parse`,
the platform `fetch` of a direct URL (status, body bytes, response MIME),
the configured virtual-base list (`none` models a falsy `_virtualBase`), and
the clock used for `acquiredAt`. -/
structure Env where
  isURL : String → Bool
  mimeLookup : String → Option String
  fetchPackage : String → Except JsErr Archive
  fetchUrl : String → Except JsErr (Nat × Bytes × Option String)
  virtualBase : Option (List String)
  now : Nat

/-- JS truthiness of `manifest.parent`: absent (`undefined`) and the empty
string are falsy. -/
def jsTruthyStrOpt : Option String → Bool
  | none => false
  | some s => !(s == "")

/-- The file-merge loop of `installPackage` (src/lib/asset.js lines 84-97).
On the dedup path the code runs `asset.packages.push(packageId)` on the
object returned by `db.assets.get`, but never writes it back with
`db.assets.put`; the fetched object is a structured clone, so the stored
record is left unchanged.  On the miss path, a manifest filename absent from
the archive makes `files[filename]` undefined and `.extract()` throw a
TypeError. -/
def mergeFiles (env : Env) (packageId : String) (payload : List (String × Bytes)) :
    Store → List (String × String) → Except JsErr Store
  | st, [] => .ok st
  | st, (filename, hash) :: rest =>
    match assetsGet st hash with
    | some _ =>
      -- `asset.packages.push(packageId)`: mutation of the clone, no `put`.
      mergeFiles env packageId payload st rest
    | none =>
      match archLookup payload filename with
      | none => .error .typeError
      | some data =>
        mergeFiles env packageId payload
          (assetsPut st { hash := hash, data := data,
                          type := env.mimeLookup filename, packages := [packageId] })
          rest

/-- `AssetDB.installPackage` (src/lib/asset.js lines 70-106).  Returns the
outcome, the resulting store, and the network events performed.  Note line
82: `await installPackage(manifest.parent)` names a module-level identifier
that does not exist (the method is `this.installPackage`), so a truthy
`manifest.parent` makes the branch throw a ReferenceError before any file is
merged. -/
def installPackage (env : Env) (st : Store) (packageId : String) :
    Except JsErr Unit × Store × List NetEvent :=
  if (packagesGet st packageId).isSome then
    (.ok (), st, [])
  else
    match env.fetchPackage packageId with
    | .error e => (.error e, st, [.fetchPkg packageId])
    | .ok archive =>
      if jsTruthyStrOpt archive.manifest.parent then
        (.error .referenceError, st, [.fetchPkg packageId])
      else
        match mergeFiles env packageId archive.payload st archive.manifest.files with
        | .error e => (.error e, st, [.fetchPkg packageId])
        | .ok st1 =>
          (.ok (),
           packagesPut st1
             { id := packageId,
               name := archive.manifest.name,
               parent := archive.manifest.parent,
               files := archive.manifest.files,
               acquiredAt := env.now },
           [.fetchPkg packageId])

/-- `AssetDB.deletePackage` (src/lib/asset.js lines 195-206).  Line 197
omits `await`: `pkg` is a Promise, so `pkg.files` is undefined and
`Object.values(undefined)` on line 198 throws a TypeError before the loop
body or the final `db.packages.delete` can run.  No record is modified. -/
def deletePackage (st : Store) (_packageId : String) :
    Except JsErr Unit × Store × List NetEvent :=
  (.error .typeError, st, [])

/-- `asset.startsWith('@')` (src/lib/asset.js lines 146, 179). -/
def startsWithAt (s : String) : Bool :=
  match s.data with
  | [] => false
  | c :: _ => c == '@'

/-- JS `String.prototype.split(sep)` for a single-character separator:
splits on every occurrence, and the empty string yields a single empty
segment. -/
def jsSplitOn (sep : Char) : List Char → List (List Char)
  | [] => [[]]
  | c :: cs =>
    if c == sep then [] :: jsSplitOn sep cs
    else
      match jsSplitOn sep cs with
      | [] => [[c]]
      | s :: ss => (c :: s) :: ss

/-- `const [packageId, resourceId] = asset.substring(1).split('/')`
(src/lib/asset.js line 179).  `split` never returns an empty array, so the
first destructured component is always present; the second is undefined when
the remainder holds no separator. -/
def parsePackageRef (s : String) : String × Option String :=
  let parts := (jsSplitOn '/' (s.data.drop 1)).map String.mk
  (parts.headD "", parts.get? 1)

/-- `db.assets.get(key)` where the key may be the undefined second
destructuring component: IndexedDB rejects `get(undefined)` with a
DataError (invalid key). -/
def assetsGetKey (st : Store) : Option String → Except JsErr (Option Asset)
  | none => .error .dataError
  | some h => .ok (assetsGet st h)

/-- JS `res.status in [404, 410]` (src/lib/asset.js line 171): the `in`
operator tests property keys of the array object, whose own keys are the
indices "0" and "1" (and "length"), so the test holds exactly for statuses
0 and 1 — never for 404 or 410. -/
def jsStatusInArr (s : Nat) : Bool :=
  s == 0 || s == 1

/-- The result of one resolution: outcome (a Blob modelled as bytes plus
MIME type, or null), the resulting store, and the network events
performed. -/
abbrev ResolveResult :=
  Except JsErr (Option (Bytes × Option String)) × Store × List NetEvent

/-- The virtual-base loop of `getAsset` (src/lib/asset.js lines 148-158),
abstracted over the recursive call.  `if (data) return data` returns the
first non-null result; the catch continues on `err instanceof FetchError`
(which includes `NotFoundError`) and rethrows anything else; exhaustion
falls through to `return null`. -/
def vbLoopWith (step : Store → String → ResolveResult) :
    Store → List String → String → ResolveResult
  | st, [], _ => (.ok none, st, [])
  | st, base :: rest, asset =>
    match step st (base ++ "/" ++ asset) with
    | (.ok (some d), st1, ev) => (.ok (some d), st1, ev)
    | (.ok none, st1, ev) =>
      match vbLoopWith step st1 rest asset with
      | (r, st2, ev2) => (r, st2, ev ++ ev2)
    | (.error e, st1, ev) =>
      if e.isFetchError then
        match vbLoopWith step st1 rest asset with
        | (r, st2, ev2) => (r, st2, ev ++ ev2)
      else (.error e, st1, ev)

/-- One layer of `AssetDB.getAsset` (src/lib/asset.js lines 145-193), with
`recur` standing for the recursive call made inside the virtual-base
loop. -/
def getAssetFix (env : Env) (recur : Store → String → Bool → ResolveResult)
    (st : Store) (asset : String) (cacheOnly : Bool) : ResolveResult :=
  if !startsWithAt asset && !env.isURL asset && env.virtualBase.isSome then
    vbLoopWith (fun st1 a => recur st1 a cacheOnly) st (env.virtualBase.getD []) asset
  else if env.isURL asset then
    if cacheOnly then (.ok none, st, [])
    else
      match env.fetchUrl asset with
      | .error e => (.error e, st, [.fetchUrl asset])
      | .ok (status, body, rtype) =>
        if jsStatusInArr status then (.error .notFound, st, [.fetchUrl asset])
        else if status ≠ 200 then (.error .fetchError, st, [.fetchUrl asset])
        else (.ok (some (body, rtype)), st, [.fetchUrl asset])
  else
    match parsePackageRef asset with
    | (packageId, resourceId) =>
      match assetsGetKey st resourceId with
      | .error e => (.error e, st, [])
      | .ok (some r) => (.ok (some (r.data, r.type)), st, [])
      | .ok none =>
        if cacheOnly then (.ok none, st, [])
        else
          match installPackage env st packageId with
          | (.error e, st1, ev) => (.error e, st1, ev)
          | (.ok _, st1, ev) =>
            match assetsGetKey st1 resourceId with
            | .error e => (.error e, st1, ev)
            | .ok none => (.error .notFound, st1, ev)
            | .ok (some r) => (.ok (some (r.data, r.type)), st1, ev)

/-- `AssetDB.getAsset`, with a recursion-depth budget standing for the JS
call stack: exhausting it models the stack-overflow RangeError of unbounded
recursion. -/
def getAsset (env : Env) : Nat → Store → String → Bool → ResolveResult
  | 0 => fun st _ _ => (.error .rangeError, st, [])
  | fuel + 1 => getAssetFix env (getAsset env fuel)

/-! ### The constructor's virtualBase validation (src/lib/asset.js lines 38-54)

The `virtualBase` option arrives as an arbitrary JS value, so this part is
modelled over a small dynamic value type. -/

/-- A dynamically-typed JS value, as far as the constructor's `virtualBase`
validation can observe it. -/
inductive JSValue where
  | undef
  | nullV
  | boolV (b : Bool)
  | numV (n : Int)
  | strV (s : String)
  | arrV (elems : List JSValue)

/-- JS truthiness. -/
def jsTruthy : JSValue → Bool
  | .undef => false
  | .nullV => false
  | .boolV b => b
  | .numV n => !(n == 0)
  | .strV s => !(s == "")
  | .arrV _ => true

/-- `virtualBase instanceof Array`. -/
def jsIsArray : JSValue → Bool
  | .arrV _ => true
  | _ => false

/-- Claim-language helper: a JS value is "defined" iff it is not
`undefined`. -/
def jsDefined : JSValue → Bool
  | .undef => false
  | _ => true

/-- `virtualBase.reduce((prev, cur) => prev && isURL(cur), true)` over an
array's elements (src/lib/asset.js line 51, with src/unnamed/part_001's
`isURL` left abstract as platform URL parsing). -/
def jsReduceAllURL (isURL : JSValue → Bool) (l : List JSValue) : Bool :=
  l.foldl (fun prev cur => prev && isURL cur) true

/-- Whether the `AssetDB` constructor throws its TypeError
(src/lib/asset.js lines 50-53): the guard is
`virtualBase && (!(virtualBase instanceof Array) || !virtualBase.reduce(...))`.
The leading `&&` short-circuits on any falsy `virtualBase`, and the `||`
short-circuits before `.reduce` unless `virtualBase` really is an array. -/
def assetDBCtorThrows (isURL : JSValue → Bool) (virtualBase : JSValue) : Bool :=
  jsTruthy virtualBase &&
    (!jsIsArray virtualBase ||
      !(match virtualBase with
        | .arrV l => jsReduceAllURL isURL l
        | _ => true))

/-! ### Concrete fixtures used to evaluate the model -/

/-- The empty store. -/
def store0 : Store := { assets := [], packages := [] }

/-- A repository serving two parentless packages, `pkgA` and `pkgB`, whose
manifests declare distinct filenames with the same content hash `H1`. -/
def envShared : Env :=
  { isURL := fun _ => false
    mimeLookup := fun _ => some "image/png"
    fetchPackage := fun pid =>
      if pid = "pkgA" then
        .ok { manifest := { name := "A", parent := none, files := [("a.png", "H1")] }
              payload := [("a.png", [1, 2])] }
      else if pid = "pkgB" then
        .ok { manifest := { name := "B", parent := none, files := [("b.png", "H1")] }
              payload := [("b.png", [9])] }
      else .error .fetchError
    fetchUrl := fun _ => .error .fetchError
    virtualBase := none
    now := 0 }

/-- The `packages` record written by installing `pkgA` from `envShared`. -/
def pkgARec : Package :=
  { id := "pkgA", name := "A", parent := none, files := [("a.png", "H1")], acquiredAt := 0 }

/-- The `packages` record written by installing `pkgB` from `envShared`. -/
def pkgBRec : Package :=
  { id := "pkgB", name := "B", parent := none, files := [("b.png", "H1")], acquiredAt := 0 }

/-- The asset record created by installing `pkgA`. -/
def assetH1 : Asset :=
  { hash := "H1", data := [1, 2], type := some "image/png", packages := ["pkgA"] }

/-- The store after installing `pkgA` into the empty store. -/
def stA : Store := { assets := [assetH1], packages := [pkgARec] }

/-- The store after then installing `pkgB` into `stA`. -/
def stB : Store := { assets := [assetH1], packages := [pkgARec, pkgBRec] }

/-- A repository serving a package `child` whose manifest declares
`parent: "par"`, and the parent itself. -/
def envParent : Env :=
  { isURL := fun _ => false
    mimeLookup := fun _ => none
    fetchPackage := fun pid =>
      if pid = "child" then
        .ok { manifest := { name := "C", parent := some "par", files := [] }
              payload := [] }
      else if pid = "par" then
        .ok { manifest := { name := "P", parent := none, files := [] }
              payload := [] }
      else .error .fetchError
    fetchUrl := fun _ => .error .fetchError
    virtualBase := none
    now := 0 }

/-- Two configured virtual bases: the first serves status 500 for `img`
(a generic FetchError, not a NotFoundError), the second serves the asset. -/
def envVb : Env :=
  { isURL := fun s => s == "https://b1/img" || s == "https://b2/img"
    mimeLookup := fun _ => none
    fetchPackage := fun _ => .error .fetchError
    fetchUrl := fun u =>
      if u = "https://b1/img" then .ok (500, [], none)
      else if u = "https://b2/img" then .ok (200, [7], some "image/gif")
      else .error .fetchError
    virtualBase := some ["https://b1", "https://b2"]
    now := 0 }

/-- Direct URLs answered with status 404 and status 410. -/
def envUrl : Env :=
  { isURL := fun s => s == "https://x/a" || s == "https://x/b"
    mimeLookup := fun _ => none
    fetchPackage := fun _ => .error .fetchError
    fetchUrl := fun u =>
      if u = "https://x/a" then .ok (404, [], none)
      else if u = "https://x/b" then .ok (410, [], none)
      else .error .fetchError
    virtualBase := none
    now := 0 }

/-- A repository whose package `P` installs successfully but provides only
hash `H2`, never the requested hash `H`. -/
def envMiss : Env :=
  { isURL := fun _ => false
    mimeLookup := fun _ => some "text/plain"
    fetchPackage := fun pid =>
      if pid = "P" then
        .ok { manifest := { name := "P", parent := none, files := [("f", "H2")] }
              payload := [("f", [5])] }
      else .error .fetchError
    fetchUrl := fun _ => .error .fetchError
    virtualBase := none
    now := 0 }

/-- The store after installing `P` from `envMiss` into the empty store. -/
def stP : Store :=
  { assets := [{ hash := "H2", data := [5], type := some "text/plain",
                 packages := ["P"] }],
    packages := [{ id := "P", name := "P", parent := none,
                   files := [("f", "H2")], acquiredAt := 0 }] }

/-- A store holding an asset whose hash is the full remainder `b/c` of the
identifier `@a/b/c`. -/
def stSlash : Store :=
  { assets := [{ hash := "b/c", data := [3], type := none, packages := ["x"] }],
    packages := [] }

/-! ## Helper lemmas -/

theorem find?_map_replace (p : Package) :
    ∀ l : List Package, (l.find? (fun q => q.id == p.id)).isSome = true →
      (l.map (fun q => if q.id == p.id then p else q)).find? (fun q => q.id == p.id) =
        some p := by
  intro l
  induction l with
  | nil => intro h; simp [List.find?] at h
  | cons q l ih =>
    intro h
    by_cases hq : (q.id == p.id) = true
    · simp only [List.map_cons, hq, if_true, List.find?_cons, beq_self_eq_true]
    · have hq' : (q.id == p.id) = false := by simpa using hq
      simp only [List.find?_cons, hq'] at h
      simp only [List.map_cons, hq', Bool.false_eq_true, if_false, List.find?_cons]
      exact ih h

theorem find?_append_absent (p : Package) :
    ∀ l : List Package, l.find? (fun q => q.id == p.id) = none →
      (l ++ [p]).find? (fun q => q.id == p.id) = some p := by
  intro l
  induction l with
  | nil => intro _; simp [List.find?_cons, beq_self_eq_true]
  | cons q l ih =>
    intro h
    cases hq : (q.id == p.id) with
    | true => simp [List.find?_cons, hq] at h
    | false =>
      simp only [List.find?_cons, hq] at h
      simp only [List.cons_append, List.find?_cons, hq]
      exact ih h

theorem packagesGet_packagesPut_self (st : Store) (p : Package) :
    packagesGet (packagesPut st p) p.id = some p := by
  unfold packagesGet packagesPut
  by_cases h : (st.packages.find? (fun q => q.id == p.id)).isSome = true
  · rw [if_pos h]
    exact find?_map_replace p st.packages h
  · rw [if_neg h]
    apply find?_append_absent
    cases hf : st.packages.find? (fun q => q.id == p.id) with
    | none => rfl
    | some q => rw [hf] at h; simp at h

theorem jsSplitOn_ne_nil (sep : Char) (l : List Char) : jsSplitOn sep l ≠ [] := by
  cases l with
  | nil => simp [jsSplitOn]
  | cons c cs =>
    by_cases hc : (c == sep) = true
    · simp [jsSplitOn, hc]
    · have hc' : (c == sep) = false := by simpa using hc
      simp only [jsSplitOn, hc', if_false]
      cases jsSplitOn sep cs <;> simp

theorem jsSplitOn_no_sep (sep : Char) (a : List Char) (h : sep ∉ a) :
    jsSplitOn sep a = [a] := by
  induction a with
  | nil => rfl
  | cons c cs ih =>
    have hc : (c == sep) = false := by
      simp only [beq_eq_false_iff_ne, ne_eq]
      intro hc
      exact h (hc ▸ List.mem_cons_self c cs)
    have hcs : sep ∉ cs := fun hm => h (List.mem_cons_of_mem c hm)
    simp [jsSplitOn, hc, ih hcs]

theorem jsSplitOn_sep_append (sep : Char) (a b : List Char) (h : sep ∉ a) :
    jsSplitOn sep (a ++ sep :: b) = a :: jsSplitOn sep b := by
  induction a with
  | nil => simp [jsSplitOn]
  | cons c cs ih =>
    have hc : (c == sep) = false := by
      simp only [beq_eq_false_iff_ne, ne_eq]
      intro hc
      exact h (hc ▸ List.mem_cons_self c cs)
    have hcs : sep ∉ cs := fun hm => h (List.mem_cons_of_mem c hm)
    simp [List.cons_append, jsSplitOn, hc, ih hcs]

theorem jsSplitOn_head (sep : Char) (b : List Char) :
    (jsSplitOn sep b).head? = some (b.takeWhile (fun c => !(c == sep))) := by
  induction b with
  | nil => rfl
  | cons c cs ih =>
    by_cases hc : (c == sep) = true
    · simp [jsSplitOn, hc, List.takeWhile_cons]
    · have hc' : (c == sep) = false := by simpa using hc
      simp only [jsSplitOn, hc', if_false, List.takeWhile_cons, Bool.not_false]
      cases hsplit : jsSplitOn sep cs with
      | nil => exact absurd hsplit (jsSplitOn_ne_nil sep cs)
      | cons s ss =>
        rw [hsplit] at ih
        simp only [List.head?_cons, Option.some.injEq] at ih
        simp [ih]

theorem jsReduceAllURL_eq_all (isURL : JSValue → Bool) (l : List JSValue) :
    jsReduceAllURL isURL l = l.all isURL := by
  have key : ∀ (l : List JSValue) (b : Bool),
      l.foldl (fun prev cur => prev && isURL cur) b = (b && l.all isURL) := by
    intro l
    induction l with
    | nil => intro b; rw [List.foldl_nil, List.all_nil, Bool.and_true]
    | cons x xs ih =>
      intro b
      rw [List.foldl_cons, ih (b && isURL x), List.all_cons, Bool.and_assoc]
  rw [jsReduceAllURL, key l true, Bool.true_and]

/-! ## Claim theorems -/

/-- C1: the dedup invariant fails on the code.  Installing `pkgA` and then
`pkgB`, whose manifests both declare content hash `H1`, both succeed, yet
the persisted Asset record for `H1` still lists only `pkgA` as owner:
`asset.packages.push(packageId)` on line 88 mutates the object handed back
by `db.assets.get` without ever writing it back with `db.assets.put`, so
the later installer is never added to the stored owner set. -/
theorem installPackage_dedup_drops_new_owner :
    installPackage envShared store0 "pkgA" = (.ok (), stA, [.fetchPkg "pkgA"]) ∧
    installPackage envShared stA "pkgB" = (.ok (), stB, [.fetchPkg "pkgB"]) ∧
    assetsGet stB "H1" =
      some { hash := "H1", data := [1, 2], type := some "image/png",
             packages := ["pkgA"] } ∧
    "pkgB" ∉ ["pkgA"] := by
  refine ⟨by decide, by decide, by decide, by decide⟩

/-- C2: a manifest with a truthy `parent` never installs the parent.
Line 82 invokes `installPackage(manifest.parent)`, a module-level identifier
that does not exist (the method is `this.installPackage`), so the install
throws a ReferenceError after the archive fetch, before any file or package
record is written — the store is unchanged and the parent is absent. -/
theorem installPackage_parent_referenceError :
    installPackage envParent store0 "child" =
      (.error .referenceError, store0, [.fetchPkg "child"]) ∧
    packagesGet store0 "par" = none ∧
    packagesGet store0 "child" = none := by
  refine ⟨by decide, by decide, by decide⟩

/-- C3: `deletePackage` can never delete anything.  Line 197 omits `await`,
so `pkg` is a Promise, `pkg.files` is undefined, and
`Object.values(undefined)` on line 198 throws a TypeError before the loop
or `db.packages.delete` run.  On a store holding installed package `pkgA`
owning asset `H1`, the call errors and both records survive intact, with
`pkgA` still in the owner set. -/
theorem deletePackage_always_typeError :
    deletePackage stA "pkgA" = (.error .typeError, stA, []) ∧
    packagesGet stA "pkgA" = some pkgARec ∧
    assetsGet stA "H1" = some assetH1 ∧
    "pkgA" ∈ assetH1.packages := by
  refine ⟨by decide, by decide, by decide, by decide⟩

/-- C7: a 404 (or 410) response to a direct-URL fetch raises the generic
FetchError, not the not-found error.  Line 171's `res.status in [404, 410]`
tests the array's property keys ("0" and "1"), which 404 and 410 never
match, so control falls to the `res.status !== 200` branch. -/
theorem getAsset_url_404_generic_fetchError :
    getAsset envUrl 1 store0 "https://x/a" false =
      (.error .fetchError, store0, [.fetchUrl "https://x/a"]) ∧
    getAsset envUrl 1 store0 "https://x/b" false =
      (.error .fetchError, store0, [.fetchUrl "https://x/b"]) ∧
    JsErr.fetchError ≠ JsErr.notFound := by
  refine ⟨by decide, by decide, by decide⟩

/-- C4: install is idempotent.  After any successful `installPackage`, a
Package record for the id is in the store, so a repeated call hits line 72's
early return: the store is left exactly as it was and no network event is
performed. -/
theorem installPackage_idempotent (env : Env) (st st' : Store) (P : String)
    (ev : List NetEvent)
    (h : installPackage env st P = (.ok (), st', ev)) :
    installPackage env st' P = (.ok (), st', []) := by
  unfold installPackage at h ⊢
  cases h0 : (packagesGet st P).isSome with
  | true =>
    rw [h0] at h
    simp only [if_true, Prod.mk.injEq] at h
    obtain ⟨-, h1, -⟩ := h
    subst h1
    simp [h0]
  | false =>
    rw [h0] at h
    simp only [Bool.false_eq_true, if_false] at h
    cases hf : env.fetchPackage P with
    | error e => simp [hf] at h
    | ok archive =>
      simp only [hf] at h
      cases hp : jsTruthyStrOpt archive.manifest.parent with
      | true => simp [hp] at h
      | false =>
        simp only [hp, Bool.false_eq_true, if_false] at h
        cases hm : mergeFiles env P archive.payload st archive.manifest.files with
        | error e => simp [hm] at h
        | ok st1 =>
          simp only [hm, Prod.mk.injEq] at h
          obtain ⟨-, h1, -⟩ := h
          rw [← h1]
          have hg : packagesGet
              (packagesPut st1
                { id := P, name := archive.manifest.name,
                  parent := archive.manifest.parent,
                  files := archive.manifest.files, acquiredAt := env.now }) P =
              some { id := P, name := archive.manifest.name,
                     parent := archive.manifest.parent,
                     files := archive.manifest.files, acquiredAt := env.now } :=
            packagesGet_packagesPut_self st1 _
          simp [hg]

/-- C4 witness: installing `pkgA` into the empty store succeeds and yields
`stA` with one archive download; by idempotence the second call returns the
same store with no network fetch. -/
theorem installPackage_idempotent_witness :
    installPackage envShared store0 "pkgA" = (.ok (), stA, [.fetchPkg "pkgA"]) ∧
    installPackage envShared stA "pkgA" = (.ok (), stA, []) :=
  ⟨by decide, installPackage_idempotent envShared store0 stA "pkgA"
      [.fetchPkg "pkgA"] (by decide)⟩

/-- C5: a package-hash identifier whose hash is already stored resolves to
the stored bytes and MIME type with no network event, leaving the store
unchanged, for either value of `cacheOnly`.  (An identifier starting with
the marker `@` cannot parse as an absolute URL, which the hypothesis on
`env.isURL` records.) -/
theorem getAsset_cached_hash_no_network (env : Env) (fuel : Nat) (st : Store)
    (asset : String) (cacheOnly : Bool) (h : String) (a : Asset)
    (h1 : startsWithAt asset = true) (h2 : env.isURL asset = false)
    (h3 : (parsePackageRef asset).2 = some h) (h4 : assetsGet st h = some a) :
    getAsset env (fuel + 1) st asset cacheOnly =
      (.ok (some (a.data, a.type)), st, []) := by
  show getAssetFix env (getAsset env fuel) st asset cacheOnly = _
  unfold getAssetFix
  rcases hp : parsePackageRef asset with ⟨pid, rid⟩
  have hrid : rid = some h := by rw [hp] at h3; exact h3
  subst hrid
  simp [h1, h2, assetsGetKey, h4]

/-- C5 witness: `@pkgA/H1` on the store `stA` holding hash `H1` resolves to
the stored bytes and type without network, whether or not `cacheOnly` is
set. -/
theorem getAsset_cached_hash_no_network_witness :
    getAsset envShared 1 stA "@pkgA/H1" true =
      (.ok (some ([1, 2], some "image/png")), stA, []) ∧
    getAsset envShared 1 stA "@pkgA/H1" false =
      (.ok (some ([1, 2], some "image/png")), stA, []) :=
  ⟨getAsset_cached_hash_no_network envShared 0 stA "@pkgA/H1" true "H1" assetH1
      (by decide) (by decide) (by decide) (by decide),
   getAsset_cached_hash_no_network envShared 0 stA "@pkgA/H1" false "H1" assetH1
      (by decide) (by decide) (by decide) (by decide)⟩

/-- C10 counterexample: `virtualBase: null` is defined and is not an array,
yet the constructor does not throw — the leading `virtualBase &&` guard
short-circuits on every falsy value, not just `undefined`. -/
theorem ctor_null_virtualBase_no_throw :
    jsDefined JSValue.nullV = true ∧ jsIsArray JSValue.nullV = false ∧
      assetDBCtorThrows (fun _ => false) JSValue.nullV = false :=
  ⟨rfl, rfl, rfl⟩

/-- C10 as amended: the constructor throws its TypeError exactly when the
`virtualBase` option is truthy and is either not an array or is an array
containing an element the platform does not parse as an absolute URL.
In particular `undefined`, `null` and every other falsy value pass, and an
array of all-URL elements passes. -/
theorem ctor_throws_iff_truthy_invalid (isURL : JSValue → Bool) (vb : JSValue) :
    assetDBCtorThrows isURL vb = true ↔
      jsTruthy vb = true ∧
        (jsIsArray vb = false ∨
          ∃ l, vb = JSValue.arrV l ∧ ∃ x ∈ l, isURL x = false) := by
  cases vb with
  | arrV l =>
    simp [assetDBCtorThrows, jsTruthy, jsIsArray, jsReduceAllURL_eq_all,
      List.all_eq_true]
  | undef => simp [assetDBCtorThrows, jsTruthy]
  | nullV => simp [assetDBCtorThrows, jsTruthy]
  | boolV b => cases b <;> simp [assetDBCtorThrows, jsTruthy, jsIsArray]
  | numV n => simp [assetDBCtorThrows, jsTruthy, jsIsArray]
  | strV s => simp [assetDBCtorThrows, jsTruthy, jsIsArray]

/-- C8 counterexample: resolving `@P/H` where package `P` installs
successfully but never provides hash `H` raises `NotFoundError` — an error
of the not-found (FetchError) class, which the virtual-base catch treats as
"try the next option", not a distinct consistency class (line 188 throws
`new NotFoundError(...)`). -/
theorem post_install_miss_raises_notFound :
    getAsset envMiss 1 store0 "@P/H" false =
      (.error .notFound, stP, [.fetchPkg "P"]) ∧
    JsErr.notFound.isFetchError = true := by
  refine ⟨by decide, by decide⟩

/-- C8 as amended: for a package-hash identifier whose hash is absent, with
`cacheOnly` false, `getAsset` installs the package and re-checks the store;
if the hash is still absent after the successful install it throws — but
the error is a `NotFoundError` (hence of the FetchError class), not an
error class distinct from not-found. -/
theorem post_install_miss_notFound_amended (env : Env) (fuel : Nat)
    (st st1 : Store) (asset : String) (pid h : String) (ev : List NetEvent)
    (h1 : startsWithAt asset = true) (h2 : env.isURL asset = false)
    (h3 : parsePackageRef asset = (pid, some h))
    (h4 : assetsGet st h = none)
    (h5 : installPackage env st pid = (.ok (), st1, ev))
    (h6 : assetsGet st1 h = none) :
    getAsset env (fuel + 1) st asset false = (.error .notFound, st1, ev) := by
  show getAssetFix env (getAsset env fuel) st asset false = _
  unfold getAssetFix
  rw [h3]
  simp [h1, h2, assetsGetKey, h4, h5, h6]

/-- C8 witness: a concrete post-install miss, raising the not-found
error. -/
theorem post_install_miss_notFound_amended_witness :
    getAsset envMiss 1 store0 "@P/H" false =
      (.error JsErr.notFound, stP, [.fetchPkg "P"]) :=
  post_install_miss_notFound_amended envMiss 0 store0 stP "@P/H" "P" "H"
    [.fetchPkg "P"] (by decide) (by decide) (by decide) (by decide)
    (by decide) (by decide)

/-- C9 counterexample: `split('/')` splits the remainder on every
separator, so `@a/b/c` parses to content hash `b` rather than the
first-separator split `b/c`; on a store holding an asset under the full
remainder hash `b/c`, resolution with `cacheOnly` misses and returns null
instead of that asset.  And the separator-free `@abc` performs an
asset-store lookup with an undefined key (rejected by the store as an
invalid-key DataError) rather than failing with a parse error. -/
theorem parse_takes_second_segment_only :
    parsePackageRef "@a/b/c" = ("a", some "b") ∧
    some "b" ≠ some "b/c" ∧
    assetsGet stSlash "b/c" =
      some { hash := "b/c", data := [3], type := none, packages := ["x"] } ∧
    getAsset envShared 1 stSlash "@a/b/c" true = (.ok none, stSlash, []) ∧
    getAsset envShared 1 stSlash "@abc" true =
      (.error .dataError, stSlash, []) := by
  refine ⟨by decide, by decide, by decide, by decide, by decide⟩

/-- C9 as amended: the parser splits the remainder on every path separator
and destructures the first two segments as `(packageId, contentHash)` — for
a remainder `a ++ "/" ++ b` with `a` separator-free, the packageId is `a`
and the contentHash is the segment of `b` before the next separator (not
the whole remainder).  A remainder with no separator yields no contentHash,
and resolution proceeds to an asset-store lookup with the undefined key,
which the store rejects as an invalid-key DataError — it is not a parse
error. -/
theorem parsePackageRef_amended (env : Env) (st : Store) (co : Bool)
    (fuel : Nat) (a b : List Char)
    (h1 : '/' ∉ a)
    (h2 : env.isURL (String.mk ('@' :: a)) = false) :
    parsePackageRef (String.mk ('@' :: a ++ '/' :: b)) =
      (String.mk a, some (String.mk (b.takeWhile (fun c => !(c == '/'))))) ∧
    parsePackageRef (String.mk ('@' :: a)) = (String.mk a, none) ∧
    getAsset env (fuel + 1) st (String.mk ('@' :: a)) co =
      (.error .dataError, st, []) := by
  have hparse2 : parsePackageRef (String.mk ('@' :: a)) = (String.mk a, none) := by
    unfold parsePackageRef
    simp [jsSplitOn_no_sep '/' a h1]
  refine ⟨?_, hparse2, ?_⟩
  · unfold parsePackageRef
    have hdrop : (String.mk ('@' :: a ++ '/' :: b)).data.drop 1 = a ++ '/' :: b := rfl
    rw [hdrop, jsSplitOn_sep_append '/' a b h1]
    cases hsplit : jsSplitOn '/' b with
    | nil => exact absurd hsplit (jsSplitOn_ne_nil '/' b)
    | cons s ss =>
      have hhead := jsSplitOn_head '/' b
      rw [hsplit] at hhead
      simp only [List.head?_cons, Option.some.injEq] at hhead
      simp [hhead]
  · show getAssetFix env (getAsset env fuel) st (String.mk ('@' :: a)) co = _
    unfold getAssetFix
    have hat : startsWithAt (String.mk ('@' :: a)) = true := by
      simp [startsWithAt]
    rw [hparse2]
    simp [hat, h2, assetsGetKey]

/-- C9 witness: the amended parse behaviour at the concrete identifiers
`@a/b/c` and `@a`. -/
theorem parsePackageRef_amended_witness :
    parsePackageRef (String.mk ('@' :: ['a'] ++ '/' :: ['b', '/', 'c'])) =
      (String.mk ['a'],
        some (String.mk (['b', '/', 'c'].takeWhile (fun c => !(c == '/'))))) ∧
    parsePackageRef (String.mk ('@' :: ['a'])) = (String.mk ['a'], none) ∧
    getAsset envShared 1 store0 (String.mk ('@' :: ['a'])) true =
      (.error .dataError, store0, []) :=
  parsePackageRef_amended envShared store0 true 0 ['a'] ['b', '/', 'c']
    (by decide) (by decide)

/-- Resolving an identifier that parses as an absolute URL never consults
the virtual-base configuration, so changing that configuration does not
change the result. -/
theorem getAsset_virtualBase_irrelevant (env : Env) (v : Option (List String))
    (fuel : Nat) (st : Store) (a : String) (co : Bool)
    (h : env.isURL a = true) :
    getAsset { env with virtualBase := v } fuel st a co =
      getAsset env fuel st a co := by
  cases fuel with
  | zero => rfl
  | succ fuel =>
    show getAssetFix { env with virtualBase := v } _ st a co =
      getAssetFix env _ st a co
    unfold getAssetFix
    simp [h]

/-- The virtual-base loop only applies its recursive step to base-prefixed
identifiers, so two steps agreeing on those agree on the loop. -/
theorem vbLoopWith_congr (step step' : Store → String → ResolveResult)
    (p : String) :
    ∀ (bases : List String) (st : Store),
      (∀ b, b ∈ bases → ∀ st1, step st1 (b ++ "/" ++ p) = step' st1 (b ++ "/" ++ p)) →
      vbLoopWith step st bases p = vbLoopWith step' st bases p := by
  intro bases
  induction bases with
  | nil => intro st _; rfl
  | cons b bs ih =>
    intro st hstep
    have hrest : ∀ st2, vbLoopWith step st2 bs p = vbLoopWith step' st2 bs p :=
      fun st2 => ih st2 (fun b2 hb2 => hstep b2 (List.mem_cons_of_mem b hb2))
    show vbLoopWith step st (b :: bs) p = vbLoopWith step' st (b :: bs) p
    unfold vbLoopWith
    rw [hstep b (List.mem_cons_self b bs) st]
    rcases step' st (b ++ "/" ++ p) with ⟨r, st1, ev⟩
    cases r with
    | error e =>
      cases he : e.isFetchError with
      | true => simp [he, hrest st1]
      | false => simp [he]
    | ok o =>
      cases o with
      | none => simp [hrest st1]
      | some d => rfl

/-- On a bare path with a configured virtual base, `getAsset` is exactly the
virtual-base loop over the configured list, each base resolved by a
recursive call at one less depth. -/
theorem getAsset_barePath (env : Env) (fuel : Nat) (st : Store) (p : String)
    (co : Bool) (bases : List String)
    (h1 : startsWithAt p = false) (h2 : env.isURL p = false)
    (h3 : env.virtualBase = some bases) :
    getAsset env (fuel + 1) st p co =
      vbLoopWith (fun st1 a => getAsset env fuel st1 a co) st bases p := by
  show getAssetFix env (getAsset env fuel) st p co = _
  unfold getAssetFix
  simp [h1, h2, h3]

theorem vbLoopWith_cons (step : Store → String → ResolveResult) (st : Store)
    (b : String) (bs : List String) (p : String) :
    vbLoopWith step st (b :: bs) p =
      match step st (b ++ "/" ++ p) with
      | (.ok (some d), st1, ev) => (.ok (some d), st1, ev)
      | (.ok none, st1, ev) =>
        match vbLoopWith step st1 bs p with
        | (r, st2, ev2) => (r, st2, ev ++ ev2)
      | (.error e, st1, ev) =>
        if e.isFetchError then
          match vbLoopWith step st1 bs p with
          | (r, st2, ev2) => (r, st2, ev ++ ev2)
        else (.error e, st1, ev) := rfl

/-- C6 counterexample: with virtual bases `[b1, b2]` where resolving
`b1/img` fails with status 500 — a generic FetchError, not a
"not found"-class NotFoundError — the chain does not abort and propagate:
it continues to `b2` and returns its asset.  The catch on line 153 tests
`err instanceof FetchError`, and `NotFoundError` is only a subclass of the
class actually caught. -/
theorem vb_chain_continues_on_generic_fetchError :
    getAsset envVb 1 store0 "https://b1/img" false =
      (.error .fetchError, store0, [.fetchUrl "https://b1/img"]) ∧
    JsErr.fetchError.isFetchError = true ∧
    JsErr.fetchError ≠ JsErr.notFound ∧
    getAsset envVb 2 store0 "img" false =
      (.ok (some ([7], some "image/gif")), store0,
        [.fetchUrl "https://b1/img", .fetchUrl "https://b2/img"]) := by
  refine ⟨by decide, by decide, by decide, by decide⟩

/-- C6 as amended: on a bare path with a configured virtual-base list, the
resolver tries each base prefix in order, recursively resolving
`base ++ "/" ++ path` with the same `cacheOnly`; the first recursive call
returning a non-null result determines the return value; an error of the
FetchError class — which includes the not-found class — continues to the
next base; an error of any class other than FetchError aborts the chain and
propagates; and exhausting all bases returns null.  Continuation to the
remaining bases is expressed as resolving the same path under the
environment whose virtual-base list is the remaining suffix.  (The
hypothesis that each later base prefix forms an absolute URL reflects the
constructor's validation of `virtualBase`.) -/
theorem vb_fallback_chain (env : Env) (fuel : Nat) (st st' : Store)
    (p : String) (co : Bool) (b : String) (rest : List String)
    (ev : List NetEvent)
    (hAt : startsWithAt p = false) (hURL : env.isURL p = false) :
    (env.virtualBase = some [] →
      getAsset env (fuel + 1) st p co = (.ok none, st, []))
    ∧ (∀ d, env.virtualBase = some (b :: rest) →
        getAsset env fuel st (b ++ "/" ++ p) co = (.ok (some d), st', ev) →
        getAsset env (fuel + 1) st p co = (.ok (some d), st', ev))
    ∧ (∀ e, env.virtualBase = some (b :: rest) →
        (∀ b2, b2 ∈ rest → env.isURL (b2 ++ "/" ++ p) = true) →
        getAsset env fuel st (b ++ "/" ++ p) co = (.error e, st', ev) →
        e.isFetchError = true →
        getAsset env (fuel + 1) st p co =
          (match getAsset { env with virtualBase := some rest } (fuel + 1)
              st' p co with
           | (r, st2, ev2) => (r, st2, ev ++ ev2)))
    ∧ (∀ e, env.virtualBase = some (b :: rest) →
        getAsset env fuel st (b ++ "/" ++ p) co = (.error e, st', ev) →
        e.isFetchError = false →
        getAsset env (fuel + 1) st p co = (.error e, st', ev))
    ∧ (env.virtualBase = some (b :: rest) →
        (∀ b2, b2 ∈ rest → env.isURL (b2 ++ "/" ++ p) = true) →
        getAsset env fuel st (b ++ "/" ++ p) co = (.ok none, st', ev) →
        getAsset env (fuel + 1) st p co =
          (match getAsset { env with virtualBase := some rest } (fuel + 1)
              st' p co with
           | (r, st2, ev2) => (r, st2, ev ++ ev2))) := by
  have hcont : ∀ (st1 : Store),
      (∀ b2, b2 ∈ rest → env.isURL (b2 ++ "/" ++ p) = true) →
      getAsset { env with virtualBase := some rest } (fuel + 1) st1 p co =
        vbLoopWith (fun s a => getAsset env fuel s a co) st1 rest p := by
    intro st1 hURLs
    rw [getAsset_barePath { env with virtualBase := some rest } fuel st1 p co
      rest hAt hURL rfl]
    exact vbLoopWith_congr _ _ p rest st1 (fun b2 hb2 st2 =>
      getAsset_virtualBase_irrelevant env (some rest) fuel st2
        (b2 ++ "/" ++ p) co (hURLs b2 hb2))
  refine ⟨?_, ?_, ?_, ?_, ?_⟩
  · intro h3
    rw [getAsset_barePath env fuel st p co [] hAt hURL h3]
    rfl
  · intro d h3 hb
    rw [getAsset_barePath env fuel st p co (b :: rest) hAt hURL h3]
    simp only [vbLoopWith_cons, hb]
  · intro e h3 hURLs hb he
    rw [getAsset_barePath env fuel st p co (b :: rest) hAt hURL h3,
      hcont st' hURLs]
    simp only [vbLoopWith_cons, hb, he, if_true]
  · intro e h3 hb he
    rw [getAsset_barePath env fuel st p co (b :: rest) hAt hURL h3]
    simp only [vbLoopWith_cons, hb, he, Bool.false_eq_true, if_false]
  · intro h3 hURLs hb
    rw [getAsset_barePath env fuel st p co (b :: rest) hAt hURL h3,
      hcont st' hURLs]
    simp only [vbLoopWith_cons, hb]

/-- C6 witness: the amended chain behaviour at concrete configurations —
exhaustion returns null; a first success is returned as-is; a generic
FetchError from the first base continues to the second and yields its
asset; a non-FetchError (the recursion-depth RangeError) aborts and
propagates; and a null result from the first base continues onward. -/
theorem vb_fallback_chain_witness :
    getAsset { envVb with virtualBase := some [] } 2 store0 "img" false =
      (.ok none, store0, []) ∧
    getAsset { envVb with virtualBase := some ["https://b2"] } 2 store0
        "img" false =
      (.ok (some ([7], some "image/gif")), store0,
        [.fetchUrl "https://b2/img"]) ∧
    getAsset envVb 2 store0 "img" false =
      (.ok (some ([7], some "image/gif")), store0,
        [.fetchUrl "https://b1/img", .fetchUrl "https://b2/img"]) ∧
    getAsset envVb 1 store0 "img" false = (.error .rangeError, store0, []) ∧
    getAsset envVb 2 store0 "img" true = (.ok none, store0, []) := by
  refine ⟨?_, ?_, ?_, ?_, ?_⟩
  · exact (vb_fallback_chain { envVb with virtualBase := some [] } 1 store0
      store0 "img" false "" [] [] (by decide) (by decide)).1 rfl
  · exact (vb_fallback_chain { envVb with virtualBase := some ["https://b2"] }
      1 store0 store0 "img" false "https://b2" [] [.fetchUrl "https://b2/img"]
      (by decide) (by decide)).2.1 ([7], some "image/gif") rfl (by decide)
  · exact ((vb_fallback_chain envVb 1 store0 store0 "img" false "https://b1"
      ["https://b2"] [.fetchUrl "https://b1/img"] (by decide)
      (by decide)).2.2.1 .fetchError rfl (by decide) (by decide)
      (by decide)).trans (by decide)
  · exact (vb_fallback_chain envVb 0 store0 store0 "img" false "https://b1"
      ["https://b2"] [] (by decide) (by decide)).2.2.2.1 .rangeError rfl
      (by decide) (by decide)
  · exact ((vb_fallback_chain envVb 1 store0 store0 "img" true "https://b1"
      ["https://b2"] [] (by decide) (by decide)).2.2.2.2 rfl (by decide)
      (by decide)).trans (by decide)

end Grubbit
